import Mathlib

/-!
# gapis: resolution entry point and atom stream

A shallow embedding of

* `gapis/atom/atom_pb/atom.go`  (`Atom`, `Handler`, `InvokeMarker`)
* `gapis/resolve/get.go`        (`Get`, `GetResolvable.Resolve`)

Go values of type `(interface{}, error)` are pairs, `context.Context` values are
references to immutable context objects kept in an explicit store, and the shared
database is explicit state that every call takes and returns.
-/

namespace Gapis

/-! ## Results -/

/-- Go's `interface{}` as returned by a resolution: `nil` or some object. The code
under study never inspects the object, so it is identified by a number. -/
inductive Value
  | nil
  | obj (id : Nat)
  deriving DecidableEq, Repr

/-- Modelled from the spec: the error kinds of section 7 (Go's `error` is an
interface whose implementations are not among the sources). `DependencyCycle` is the error
of the self-referential scenario of section 8; `Other` is any further error. -/
inductive Error
  | AddressNotFound
  | CaptureNotBound
  | DependencyFailed
  | HandlerAborted
  | Canceled
  | DependencyCycle
  | Other (code : Nat)
  deriving DecidableEq, Repr

/-- The pair `(interface{}, error)` that `Get`, `Build` and `Resolve` return. A `nil`
error is `none`. -/
structure Result where
  value : Value
  err : Option Error
  deriving DecidableEq, Repr

/-! ## atom_pb: atoms, handlers, the invoke marker -/

/-- A protobuf message body: the fields that are set, by field number. The zero
value of a message type has no field set. (The generated message types are not
among the sources; `Atom` only requires `proto.Message`.) -/
structure Message where
  fields : List (Nat × Nat)
  deriving DecidableEq, Repr

/-- The zero value of a message, as built by a composite literal `T{}`. -/
def Message.zero : Message := ⟨[]⟩

/-- `type Atom interface { proto.Message }`: an atom is a message of some concrete
type. `Invoke` is the type named in `atom.go`; every other atom type is a
`Command` tagged by its kind. An atom is taken by its dynamic type and contents:
the identity of the pointer an interface value holds is not represented. -/
inductive Atom
  | Invoke (msg : Message)
  | Command (kind : Nat) (msg : Message)
  deriving DecidableEq, Repr

/-- The message body of an atom. -/
def Atom.msg : Atom → Message
  | .Invoke m => m
  | .Command _ m => m

/-- The type match `_, ok := a.(*Invoke)`. -/
def Atom.isInvoke : Atom → Bool
  | .Invoke _ => true
  | .Command _ _ => false

/-- The value `var InvokeMarker Atom = &Invoke{}` is initialised with: an `Invoke`
with no field set. That the variable holds one shared pointer, and that a package
variable can be reassigned, is not represented. -/
def InvokeMarker : Atom := Atom.Invoke Message.zero

/-- A `context.Context` value: a reference to a context object of the store. -/
abbrev Context := Nat

/-- `type Handler func(context.Context, Atom) error`. A Go handler is a closure; `σ`
is the state it closes over, passed in and out of every invocation. -/
abbrev Handler (σ : Type) := Context → Atom → σ → Option Error × σ

/-- What a traversal leaves behind: the error it returns, the handler's state, and
the atoms the handler was invoked on, in order of invocation. -/
structure Traversal (σ : Type) where
  err : Option Error
  state : σ
  visited : List Atom

/-- Modelled from the spec: the handler-driven traversal of section 4.4 (the
function that walks an atom log is not among the sources). The handler is invoked once per
atom in recorded order; on the first failure the traversal stops and returns that
failure. -/
def traverseAtoms {σ : Type} (h : Handler σ) (ctx : Context) : List Atom → σ → Traversal σ
  | [], s => ⟨none, s, []⟩
  | a :: rest, s =>
    match h ctx a s with
    | (some e, s1) => ⟨some e, s1, [a]⟩
    | (none, s1) =>
      let t := traverseAtoms h ctx rest s1
      ⟨t.err, t.state, a :: t.visited⟩

/-- Modelled from the spec: traversal of a log "given a starting point" (section
4.4): the atoms from index `start` on are handed to the handler. -/
def Traverse {σ : Type} (h : Handler σ) (ctx : Context) (log : List Atom) (start : Nat)
    (s : σ) : Traversal σ :=
  traverseAtoms h ctx (log.drop start) s

/-- The handler of the scenario of section 8: it counts the atoms it is given and
records the index of each one that type-matches the sentinel. It never fails. -/
def countingHandler : Handler (Nat × List Nat) :=
  fun _ a s => (none, (s.1 + 1, if a.isInvoke then s.2 ++ [s.1] else s.2))

/-! ## path: nodes and their owning capture -/

/-- A `path.Capture`: the identity of a capture. -/
structure Capture where
  id : Nat
  deriving DecidableEq, Repr

/-- Modelled from the spec: a path node (section 3, "Path"; package `path` is not
among the sources). A node is a capture root, a root that names something outside any capture,
or a child made of a parent node and a selector. -/
inductive Node
  | capture (c : Capture)
  | root (entity : Nat)
  | child (parent : Node) (selector : Nat)
  deriving DecidableEq, Repr

/-- Modelled from the spec: `path.FindCapture` (section 4.1): walk the parent links
until a capture-rooted node is reached; nothing is found on a path that is not
capture-rooted. -/
def path.FindCapture : Node → Option Capture
  | .capture c => some c
  | .root _ => none
  | .child p _ => path.FindCapture p

/-- A `path.Any`: the wrapper whose `Node()` gives the addressed node. -/
structure Any where
  node : Node
  deriving DecidableEq, Repr

/-- `(*path.Any).Node()`. -/
def Any.Node (p : Any) : Node := p.node

/-! ## context: immutable context objects in a store -/

/-- Keys of context values. `capture` is the key package `capture` binds under. -/
inductive Key
  | capture
  | other (n : Nat)
  deriving DecidableEq, Repr

/-- Values bound in a context. -/
inductive CtxValue
  | capture (c : Capture)
  | other (n : Nat)
  deriving DecidableEq, Repr

/-- A context object: the background context, or a value context that holds one
binding and a reference to its parent (Go's `context.WithValue`). -/
inductive CtxObj
  | background
  | valueCtx (parent : Context) (key : Key) (val : CtxValue)
  deriving DecidableEq, Repr

/-- `Context.Value(key)` on the object at `ctx`, at most `fuel` objects deep: the
nearest binding of `key` on the parent chain. -/
def valueAux (s : List CtxObj) (k : Key) : Nat → Context → Option CtxValue
  | 0, _ => none
  | fuel + 1, ctx =>
    match s[ctx]? with
    | none => none
    | some .background => none
    | some (.valueCtx parent key val) =>
      if key = k then some val else valueAux s k fuel parent

/-- `ctx.Value(key)`. A parent is allocated before its child, so the chain from
`ctx` is at most `ctx + 1` objects long (see `StoreWF`). -/
def Context.Value (s : List CtxObj) (ctx : Context) (k : Key) : Option CtxValue :=
  valueAux s k (ctx + 1) ctx

/-- Whether the object stored at reference `i` (if any) has its parent, if it has
one, at a smaller reference. -/
def CtxObj.parentBelow (i : Nat) : Option CtxObj → Bool
  | some (.valueCtx parent _ _) => decide (parent < i)
  | _ => true

/-- The store is well formed when every parent link points to an older object. -/
def StoreWF (s : List CtxObj) : Prop :=
  ∀ i, i < s.length → CtxObj.parentBelow i s[i]? = true

instance (s : List CtxObj) : Decidable (StoreWF s) :=
  Nat.decidableBallLT _ _

/-! ## database: cache entries -/

/-- Modelled from the spec: the state of a cache entry (section 3, "Cache Entry"). -/
inductive EntryState
  | pending
  | ready (v : Value)
  | failed (e : Error)
  deriving DecidableEq, Repr

/-- Modelled from the spec: a cache entry (section 3). The set of waiters is empty in
a sequential execution and is left out. -/
structure Entry where
  fingerprint : Nat
  state : EntryState
  deriving DecidableEq, Repr

/-- Modelled from the spec: the database (section 4.3). `resolved` is instrumentation:
the fingerprints whose `Resolve` the database has invoked, most recent first. -/
structure Database where
  entries : List Entry
  resolved : List Nat
  deriving DecidableEq, Repr

/-- The entry stored for a fingerprint, if any. -/
def Database.find (db : Database) (fp : Nat) : Option EntryState :=
  (db.entries.find? (fun e => e.fingerprint == fp)).map Entry.state

/-- Drop the entry of `fp`, if there is one. -/
def Database.erase (db : Database) (fp : Nat) : Database :=
  ⟨db.entries.filter (fun e => e.fingerprint != fp), db.resolved⟩

/-- Store `st` as the entry of `fp`, replacing what was there. -/
def Database.store (db : Database) (fp : Nat) (st : EntryState) : Database :=
  ⟨⟨fp, st⟩ :: db.entries.filter (fun e => e.fingerprint != fp), db.resolved⟩

/-- Record that `Resolve` is being invoked for `fp`. -/
def Database.noteResolve (db : Database) (fp : Nat) : Database :=
  ⟨db.entries, fp :: db.resolved⟩

/-- Everything a call can read or change: the context objects and the database. -/
structure World where
  contexts : List CtxObj
  db : Database
  deriving DecidableEq, Repr

/-- Modelled from the spec: `capture.Put` (sections 3 and 6; package `capture` is not
among the sources): the capture is bound by producing a new context derived from `ctx`; no
existing context object is touched. Returns the derived context. -/
def capture.Put (w : World) (ctx : Context) (c : Capture) : Context × World :=
  (w.contexts.length,
   ⟨w.contexts ++ [CtxObj.valueCtx ctx Key.capture (CtxValue.capture c)], w.db⟩)

/-- Modelled from the spec: `capture.Get`: the capture bound in `ctx`, if any. -/
def capture.Get (w : World) (ctx : Context) : Option Capture :=
  match Context.Value w.contexts ctx Key.capture with
  | some (.capture c) => some c
  | _ => none

/-! ## resolve: get.go -/

/-- The resolvable of `get.go`: a `GetResolvable` wraps a path. -/
structure GetResolvable where
  Path : Any
  deriving DecidableEq, Repr

/-- What `get.go` calls from other packages and files, taken as parameters:
`path.FindCapture`; `capture.Put`, which returns a context (and, here, the world in
which it may have allocated one); the package function `Resolve(ctx, node)` that
dispatches on the kind of node (it may call back into the database, so it takes and
returns the world); and the fingerprint under which the database files a
resolvable. -/
structure Env where
  FindCapture : Node → Option Capture
  Put : World → Context → Capture → Context × World
  Resolve : Context → Node → World → Result × World
  fingerprint : GetResolvable → Nat

/-- The `if` statement of `(*GetResolvable).Resolve`:
`if c := path.FindCapture(r.Path.Node()); c != nil { ctx = capture.Put(ctx, c) }`.
The result is the value of the local variable `ctx` after the statement (and the
world, in which `capture.Put` may have allocated a context object). -/
def GetResolvable.bindCapture (env : Env) (r : GetResolvable) (ctx : Context)
    (w : World) : Context × World :=
  match env.FindCapture r.Path.Node with
  | some c => env.Put w ctx c
  | none => (ctx, w)

/-- The method `(*GetResolvable).Resolve` of `get.go`: the `if` statement above, then
`return Resolve(ctx, r.Path.Node())`. -/
def GetResolvable.Resolve (env : Env) (r : GetResolvable) (ctx : Context) (w : World) :
    Result × World :=
  let bound := r.bindCapture env ctx w
  env.Resolve bound.1 r.Path.Node bound.2

/-- The signature of `database.Build` for the resolvables of `get.go`. -/
abbrev BuildFn := Context → GetResolvable → World → Result × World

/-- The function `Get` of `get.go`: `return database.Build(ctx, &GetResolvable{p})`. -/
def Get (Build : BuildFn) (ctx : Context) (p : Any) (w : World) : Result × World :=
  Build ctx ⟨p⟩ w

/-- What a finished cache entry hands to a caller. -/
def EntryState.result : EntryState → Result
  | .ready v => ⟨v, none⟩
  | .failed e => ⟨Value.nil, some e⟩
  | .pending => ⟨Value.nil, some Error.DependencyCycle⟩

/-- Modelled from the spec: the state an entry moves to when `Resolve` returns
(section 4.3, step 4): ready with the value, or failed with the error. A
cancellation is never cached (section 7), so it gives no entry. -/
def EntryState.ofResult (r : Result) : Option EntryState :=
  match r.err with
  | some Error.Canceled => none
  | some e => some (.failed e)
  | none => some (.ready r.value)

/-- Modelled from the spec: `database.Build` (section 4.3; package `database` is not
among the sources), for one thread of control. A finished entry is returned as stored. With
a single thread a pending entry can only belong to the caller's own call chain, which
is the dependency cycle of sections 8 and 9 and is reported as an error. Otherwise a
pending entry is created, `Resolve` is invoked, and the entry is moved to ready or
failed with the outcome, which is what the caller receives. When the outcome is a
cancellation the entry is dropped and not kept as a failure (section 7); the caller
receives the cancellation. -/
def database.Build (env : Env) : BuildFn := fun ctx r w =>
  let fp := env.fingerprint r
  match w.db.find fp with
  | some st => (st.result, w)
  | none =>
    let w1 : World := ⟨w.contexts, (w.db.store fp EntryState.pending).noteResolve fp⟩
    let out := r.Resolve env ctx w1
    match EntryState.ofResult out.1 with
    | some st => (st.result, ⟨out.2.contexts, out.2.db.store fp st⟩)
    | none => (⟨Value.nil, some Error.Canceled⟩, ⟨out.2.contexts, out.2.db.erase fp⟩)

/-- No context object of `w` has been changed in `w1`: every reference that is valid
in `w` denotes the same object in `w1`. -/
def ContextsKept (w w1 : World) : Prop :=
  ∀ i, i < w.contexts.length → w1.contexts[i]? = w.contexts[i]?

instance (w w1 : World) : Decidable (ContextsKept w w1) :=
  Nat.decidableBallLT _ _

/-! ## A small concrete setting -/

/-- A resolver to evaluate the definitions on. It is not the resolver the spec
describes (that is `resolve.Resolve` below): a root outside any capture resolves to
its entity without needing a capture, and every other node is resolved against the
capture bound in the context, failing with `CaptureNotBound` when there is none. -/
def demoResolve : Context → Node → World → Result × World := fun ctx n w =>
  match n with
  | .root entity => (⟨Value.obj entity, none⟩, w)
  | _ =>
    match capture.Get w ctx with
    | some c => (⟨Value.obj c.id, none⟩, w)
    | none => (⟨Value.nil, some Error.CaptureNotBound⟩, w)

/-- A number for each node; used as the fingerprint of the resolvable wrapping it. -/
def Node.code : Node → Nat
  | .capture c => 3 * c.id
  | .root entity => 3 * entity + 1
  | .child p sel => 3 * Nat.pair (Node.code p) sel + 2

/-- The concrete environment: `path.FindCapture` and `capture.Put` as modelled above,
`demoResolve`, and the node code as fingerprint. -/
def demoEnv : Env :=
  ⟨path.FindCapture, capture.Put, demoResolve, fun r => Node.code r.Path.Node⟩

/-- Modelled from the spec: the package function `Resolve(ctx, node)` (sections 2,
4.1, 4.2 and 7; its file is not among the sources). A path with no discoverable
owning capture is reported as `CaptureNotBound`. Otherwise the node is resolved
against the capture bound in the context: `CaptureNotBound` when none is bound, the
value that capture holds at the node, or `AddressNotFound` when it holds none.
`valueAt` stands for the contents of the captures, an external collaborator. -/
def resolve.Resolve (valueAt : Capture → Node → Option Value) :
    Context → Node → World → Result × World := fun ctx n w =>
  match path.FindCapture n with
  | none => (⟨Value.nil, some Error.CaptureNotBound⟩, w)
  | some _ =>
    match capture.Get w ctx with
    | none => (⟨Value.nil, some Error.CaptureNotBound⟩, w)
    | some c =>
      match valueAt c n with
      | some v => (⟨v, none⟩, w)
      | none => (⟨Value.nil, some Error.AddressNotFound⟩, w)

/-- The environment in which everything `get.go` calls is as the spec describes it:
`path.FindCapture`, `capture.Put` and `resolve.Resolve` as modelled above. The
contents of the captures and the fingerprint stay parameters. -/
def specEnv (valueAt : Capture → Node → Option Value)
    (fingerprint : GetResolvable → Nat) : Env :=
  ⟨path.FindCapture, capture.Put, resolve.Resolve valueAt, fingerprint⟩

/-- Capture contents to evaluate on: every capture holds, at every node, the object
numbered by the capture. -/
def demoValueAt : Capture → Node → Option Value :=
  fun c _ => some (Value.obj c.id)

/-- An environment whose nested resolution is released by cancellation: it reports
`Canceled` (section 5), which `GetResolvable.Resolve` passes on unchanged. -/
def canceledEnv : Env :=
  ⟨path.FindCapture, capture.Put, fun _ _ w => (⟨Value.nil, some Error.Canceled⟩, w),
   fun r => Node.code r.Path.Node⟩

/-- A world with the background context at reference 0, a context at reference 1
in which capture 1 is bound, and an empty database. -/
def demoWorld : World :=
  ⟨[CtxObj.background, CtxObj.valueCtx 0 Key.capture (CtxValue.capture ⟨1⟩)], ⟨[], []⟩⟩

/-- A handler that fails with `HandlerAborted` on the sentinel and counts the atoms
it accepted. -/
def stopAtInvoke : Handler Nat :=
  fun _ a s => if a.isInvoke then (some Error.HandlerAborted, s) else (none, s + 1)

/-! ## Lemmas -/

theorem traverseAtoms_first_failure {σ : Type} (h : Handler σ) (ctx : Context)
    (pre : List Atom) (a : Atom) (post : List Atom) (s : σ) (e : Error)
    (hpre : (traverseAtoms h ctx pre s).err = none)
    (hfail : (h ctx a (traverseAtoms h ctx pre s).state).1 = some e) :
    traverseAtoms h ctx (pre ++ a :: post) s =
      ⟨some e, (h ctx a (traverseAtoms h ctx pre s).state).2, pre ++ [a]⟩ := by
  induction pre generalizing s with
  | nil =>
    simp only [traverseAtoms] at hfail
    simp only [List.nil_append, traverseAtoms]
    cases hh : h ctx a s with
    | mk o s1 =>
      rw [hh] at hfail
      simp only at hfail
      subst hfail
      rfl
  | cons b pre ih =>
    simp only [List.cons_append, traverseAtoms] at hpre hfail ⊢
    cases hh : h ctx b s with
    | mk o s1 =>
      rw [hh] at hpre hfail
      cases o with
      | some e1 => simp at hpre
      | none =>
        simp only at hpre hfail ⊢
        have hrec := ih s1 hpre hfail
        simp only [List.append_eq] at hrec ⊢
        rw [hrec]

theorem valueAux_of_kept (s s1 : List CtxObj) (k : Key) (hwf : StoreWF s)
    (hkept : ∀ i, i < s.length → s1[i]? = s[i]?) :
    ∀ (fuel : Nat) (ctx : Context), ctx < s.length →
      valueAux s1 k fuel ctx = valueAux s k fuel ctx := by
  intro fuel
  induction fuel with
  | zero => intro ctx _; rfl
  | succ fuel ih =>
    intro ctx hctx
    simp only [valueAux]
    rw [hkept ctx hctx]
    cases hobj : s[ctx]? with
    | none => rfl
    | some obj =>
      cases obj with
      | background => rfl
      | valueCtx parent key val =>
        have hlt : parent < ctx := by
          have hbelow := hwf ctx hctx
          rw [hobj] at hbelow
          exact of_decide_eq_true hbelow
        simp only
        rw [ih parent (Nat.lt_trans hlt hctx)]

theorem ContextsKept_Put (w : World) (ctx : Context) (c : Capture) :
    ContextsKept w (capture.Put w ctx c).2 := by
  intro i hi
  simp only [capture.Put]
  exact List.getElem?_append_left hi

theorem ContextsKept_trans (w w1 w2 : World) (h1 : ContextsKept w w1)
    (h2 : ContextsKept w1 w2) : ContextsKept w w2 := by
  intro i hi
  have hlen : i < w1.contexts.length := by
    have := h1 i hi
    have hsome : w.contexts[i]? = some (w.contexts[i]) := List.getElem?_eq_getElem hi
    rw [hsome] at this
    by_contra hge
    rw [List.getElem?_eq_none (Nat.le_of_not_lt hge)] at this
    cases this
  rw [h2 i hlen, h1 i hi]

theorem capture_Get_Put (w : World) (ctx : Context) (c : Capture) :
    capture.Get (capture.Put w ctx c).2 (capture.Put w ctx c).1 = some c := by
  simp [capture.Get, capture.Put, Context.Value, valueAux]

theorem Database.find_store (db : Database) (fp : Nat) (st : EntryState) :
    (db.store fp st).find fp = some st := by
  simp [Database.find, Database.store, List.find?]

theorem demoResolve_world (ctx : Context) (n : Node) (w : World) :
    (demoResolve ctx n w).2 = w := by
  unfold demoResolve
  split
  · rfl
  · split <;> rfl

theorem StoreWF_Put (w : World) (ctx : Context) (c : Capture)
    (hwf : StoreWF w.contexts) (hctx : ctx < w.contexts.length) :
    StoreWF (capture.Put w ctx c).2.contexts := by
  intro i hi
  simp only [capture.Put, List.length_append, List.length_singleton] at hi ⊢
  by_cases hlt : i < w.contexts.length
  · rw [List.getElem?_append_left hlt]
    exact hwf i hlt
  · have hEq : i = w.contexts.length := by omega
    subst hEq
    simp [CtxObj.parentBelow, hctx]

/-! ## get.go -/

/-- C1. For every context and path, `Get(ctx, p)` returns exactly what
`database.Build` returns for the same context and the `GetResolvable` wrapping `p`
(the pair of value and error, and the same resulting state); `Get` adds, drops and
rewrites nothing. This holds for every function standing for `database.Build`. -/
theorem Get_is_Build (Build : BuildFn) (ctx : Context) (p : Any) (w : World) :
    Get Build ctx p w = Build ctx (GetResolvable.mk p) w ∧
    (Get Build ctx p w).1.value = (Build ctx (GetResolvable.mk p) w).1.value ∧
    (Get Build ctx p w).1.err = (Build ctx (GetResolvable.mk p) w).1.err :=
  ⟨rfl, rfl, rfl⟩

/-- C2. If `path.FindCapture` finds a capture `c` on the node of the resolvable's
path, `GetResolvable.Resolve` returns the result of the nested `Resolve` on that
node, called with the context that `capture.Put(ctx, c)` returns; with `capture.Put`
as the spec describes it, the capture bound in that context is `c`, whatever was
bound in `ctx` before. -/
theorem Resolve_binds_found_capture (env : Env) (r : GetResolvable) (ctx : Context)
    (w : World) (c : Capture) (hfound : env.FindCapture r.Path.Node = some c) :
    r.Resolve env ctx w = env.Resolve (env.Put w ctx c).1 r.Path.Node (env.Put w ctx c).2 ∧
    (env.Put = capture.Put →
      capture.Get (env.Put w ctx c).2 (env.Put w ctx c).1 = some c) := by
  refine ⟨?_, fun hput => ?_⟩
  · simp only [GetResolvable.Resolve, GetResolvable.bindCapture, hfound]
  · rw [hput]
    exact capture_Get_Put w ctx c

/-- Witness of C2: the path lies under capture 2 while the caller's context (reference
1 of `demoWorld`) has capture 1 bound; the nested resolution sees capture 2. -/
theorem Resolve_binds_found_capture_witness :
    demoEnv.FindCapture (GetResolvable.mk ⟨Node.child (Node.capture ⟨2⟩) 7⟩).Path.Node
        = some ⟨2⟩ ∧
    capture.Get demoWorld 1 = some ⟨1⟩ ∧
    (GetResolvable.Resolve demoEnv ⟨⟨Node.child (Node.capture ⟨2⟩) 7⟩⟩ 1 demoWorld =
      demoEnv.Resolve (demoEnv.Put demoWorld 1 ⟨2⟩).1 (Node.child (Node.capture ⟨2⟩) 7)
        (demoEnv.Put demoWorld 1 ⟨2⟩).2 ∧
     capture.Get (demoEnv.Put demoWorld 1 ⟨2⟩).2 (demoEnv.Put demoWorld 1 ⟨2⟩).1
        = some ⟨2⟩) ∧
    (GetResolvable.Resolve demoEnv ⟨⟨Node.child (Node.capture ⟨2⟩) 7⟩⟩ 1 demoWorld).1
        = ⟨Value.obj 2, none⟩ :=
  ⟨by decide, by decide,
   ⟨(Resolve_binds_found_capture demoEnv ⟨⟨Node.child (Node.capture ⟨2⟩) 7⟩⟩ 1 demoWorld
      ⟨2⟩ (by decide)).1,
    (Resolve_binds_found_capture demoEnv ⟨⟨Node.child (Node.capture ⟨2⟩) 7⟩⟩ 1 demoWorld
      ⟨2⟩ (by decide)).2 rfl⟩,
   by decide⟩

/-- C3. With the nested `Resolve` as the spec describes it, resolving a
`GetResolvable` whose path has no discoverable owning capture (`path.FindCapture`
finds nothing on its node) reports an error to the caller: `GetResolvable.Resolve`
returns `CaptureNotBound` and no value, whatever capture is bound in the caller's
context, and so does `Get` when the database holds no entry for the resolvable yet. -/
theorem Resolve_without_capture_reports_error (valueAt : Capture → Node → Option Value)
    (fingerprint : GetResolvable → Nat) (p : Any) (ctx : Context) (w : World)
    (hnone : path.FindCapture p.Node = none) :
    ((GetResolvable.mk p).Resolve (specEnv valueAt fingerprint) ctx w).1.err
      = some Error.CaptureNotBound ∧
    ((GetResolvable.mk p).Resolve (specEnv valueAt fingerprint) ctx w).1.value
      = Value.nil ∧
    (w.db.find (fingerprint (GetResolvable.mk p)) = none →
      (Get (database.Build (specEnv valueAt fingerprint)) ctx p w).1.err
        = some Error.CaptureNotBound) := by
  have hres : ∀ w0 : World,
      (GetResolvable.mk p).Resolve (specEnv valueAt fingerprint) ctx w0
        = (⟨Value.nil, some Error.CaptureNotBound⟩, w0) := by
    intro w0
    simp only [GetResolvable.Resolve, GetResolvable.bindCapture, specEnv, hnone,
      resolve.Resolve]
  refine ⟨?_, ?_, ?_⟩
  · rw [hres]
  · rw [hres]
  · intro hfresh
    simp only [Get, database.Build]
    rw [show (specEnv valueAt fingerprint).fingerprint = fingerprint from rfl, hfresh]
    simp only [hres, EntryState.ofResult, EntryState.result]

/-- Witness of C3: a node under a root outside any capture, resolved from the context
of `demoWorld` in which capture 1 is bound, is reported as `CaptureNotBound` by
`GetResolvable.Resolve` and by `Get`. -/
theorem Resolve_without_capture_reports_error_witness :
    path.FindCapture (Any.mk (Node.child (Node.root 5) 3)).Node = none ∧
    capture.Get demoWorld 1 = some ⟨1⟩ ∧
    (GetResolvable.Resolve (specEnv demoValueAt (fun r => Node.code r.Path.Node))
        ⟨⟨Node.child (Node.root 5) 3⟩⟩ 1 demoWorld).1.err = some Error.CaptureNotBound ∧
    (Get (database.Build (specEnv demoValueAt (fun r => Node.code r.Path.Node))) 1
        ⟨Node.child (Node.root 5) 3⟩ demoWorld).1.err = some Error.CaptureNotBound :=
  ⟨by decide, by decide,
   (Resolve_without_capture_reports_error demoValueAt (fun r => Node.code r.Path.Node)
      ⟨Node.child (Node.root 5) 3⟩ 1 demoWorld (by decide)).1,
   (Resolve_without_capture_reports_error demoValueAt (fun r => Node.code r.Path.Node)
      ⟨Node.child (Node.root 5) 3⟩ 1 demoWorld (by decide)).2.2 (by decide)⟩

/-- C4. If the nested `Resolve` that `GetResolvable.Resolve` calls (on the node of
the path, with the context left by the `if` statement) fails with error `e`, then
`GetResolvable.Resolve` returns that very pair of value and error: the error is `e`,
not wrapped or replaced, and no value is substituted. Likewise `Get` returns the
pair of `Build`, so an error of `Build` is the error of `Get`. -/
theorem Resolve_and_Get_return_errors_unmodified (env : Env) (Build : BuildFn)
    (r : GetResolvable) (ctx : Context) (w : World) (e : Error)
    (hfail :
      (env.Resolve (r.bindCapture env ctx w).1 r.Path.Node (r.bindCapture env ctx w).2).1.err
        = some e) :
    (r.Resolve env ctx w).1.err = some e ∧
    (r.Resolve env ctx w).1 =
      (env.Resolve (r.bindCapture env ctx w).1 r.Path.Node (r.bindCapture env ctx w).2).1 ∧
    (∀ (p : Any) (e1 : Error), (Build ctx (GetResolvable.mk p) w).1.err = some e1 →
      (Get Build ctx p w).1.err = some e1 ∧
      (Get Build ctx p w).1 = (Build ctx (GetResolvable.mk p) w).1) := by
  refine ⟨?_, ?_, ?_⟩
  · simpa only [GetResolvable.Resolve] using hfail
  · rfl
  · intro p e1 h1
    exact ⟨h1, rfl⟩

/-- Witness of C4: the nested resolver fails with `CaptureNotBound` and that is the
error `GetResolvable.Resolve` returns. -/
theorem Resolve_and_Get_return_errors_unmodified_witness :
    (demoEnv.Resolve
        ((GetResolvable.mk ⟨Node.child (Node.root 5) 3⟩).bindCapture demoEnv 0 demoWorld).1
        (Node.child (Node.root 5) 3)
        ((GetResolvable.mk ⟨Node.child (Node.root 5) 3⟩).bindCapture demoEnv 0 demoWorld).2).1.err
      = some Error.CaptureNotBound ∧
    (GetResolvable.Resolve demoEnv ⟨⟨Node.child (Node.root 5) 3⟩⟩ 0 demoWorld).1.err
      = some Error.CaptureNotBound ∧
    (Get (database.Build demoEnv) 0 ⟨Node.child (Node.root 5) 3⟩ demoWorld).1.err
      = some Error.CaptureNotBound :=
  ⟨by decide,
   (Resolve_and_Get_return_errors_unmodified demoEnv (database.Build demoEnv)
      ⟨⟨Node.child (Node.root 5) 3⟩⟩ 0 demoWorld Error.CaptureNotBound (by decide)).1,
   ((Resolve_and_Get_return_errors_unmodified demoEnv (database.Build demoEnv)
      ⟨⟨Node.child (Node.root 5) 3⟩⟩ 0 demoWorld Error.CaptureNotBound (by decide)).2.2
      ⟨Node.child (Node.root 5) 3⟩ Error.CaptureNotBound (by decide)).1⟩

/-- C5. `GetResolvable.Resolve` leaves the caller's context unchanged. In a
well-formed store and for a valid context reference `ctx`, when `capture.Put` binds
by deriving a context (it changes no existing context object) and the nested
resolver changes none either, no context object that existed before the call is
changed by it, so every lookup on `ctx` gives the same answer after the call as
before it. -/
theorem Resolve_leaves_caller_context (env : Env) (r : GetResolvable) (ctx : Context)
    (w : World) (hwf : StoreWF w.contexts) (hctx : ctx < w.contexts.length)
    (hput : ∀ w0 c0 cap, ContextsKept w0 (env.Put w0 c0 cap).2)
    (hnested : ∀ c0 n w0, ContextsKept w0 (env.Resolve c0 n w0).2) :
    ContextsKept w (r.Resolve env ctx w).2 ∧
    ∀ k, Context.Value (r.Resolve env ctx w).2.contexts ctx k
          = Context.Value w.contexts ctx k := by
  have hkept : ContextsKept w (r.Resolve env ctx w).2 := by
    simp only [GetResolvable.Resolve, GetResolvable.bindCapture]
    cases env.FindCapture r.Path.Node with
    | none => exact hnested _ _ _
    | some c => exact ContextsKept_trans _ _ _ (hput w ctx c) (hnested _ _ _)
  exact ⟨hkept, fun k => valueAux_of_kept _ _ k hwf hkept (ctx + 1) ctx hctx⟩

/-- Witness of C5: resolving a path under capture 2 from the context of `demoWorld`
in which capture 1 is bound leaves capture 1 bound in that context. -/
theorem Resolve_leaves_caller_context_witness :
    StoreWF demoWorld.contexts ∧ 1 < demoWorld.contexts.length ∧
    (∀ w0 c0 cap, ContextsKept w0 (demoEnv.Put w0 c0 cap).2) ∧
    (∀ c0 n w0, ContextsKept w0 (demoEnv.Resolve c0 n w0).2) ∧
    (∀ k, Context.Value
        (GetResolvable.Resolve demoEnv ⟨⟨Node.child (Node.capture ⟨2⟩) 7⟩⟩ 1
          demoWorld).2.contexts 1 k
      = Context.Value demoWorld.contexts 1 k) ∧
    capture.Get
        (GetResolvable.Resolve demoEnv ⟨⟨Node.child (Node.capture ⟨2⟩) 7⟩⟩ 1 demoWorld).2 1
      = some ⟨1⟩ :=
  ⟨(by decide), by decide,
   fun w0 c0 cap => ContextsKept_Put w0 c0 cap,
   fun c n w0 i _ => by rw [show demoEnv.Resolve = demoResolve from rfl, demoResolve_world],
   (Resolve_leaves_caller_context demoEnv ⟨⟨Node.child (Node.capture ⟨2⟩) 7⟩⟩ 1 demoWorld
      (by decide) (by decide) (fun w0 c0 cap => ContextsKept_Put w0 c0 cap)
      (fun c n w0 i _ => by
        rw [show demoEnv.Resolve = demoResolve from rfl, demoResolve_world])).2,
   by decide⟩

/-- C10. If `path.FindCapture` finds no capture on the node of the resolvable's
path, `GetResolvable.Resolve` is the nested `Resolve` called with the caller's own
context in the unchanged world: no capture is bound, no context is derived, and a
capture already bound in `ctx` is what the nested resolution sees. -/
theorem Resolve_without_capture_uses_caller_context (env : Env) (r : GetResolvable)
    (ctx : Context) (w : World) (hnone : env.FindCapture r.Path.Node = none) :
    r.Resolve env ctx w = env.Resolve ctx r.Path.Node w ∧
    r.bindCapture env ctx w = (ctx, w) := by
  simp only [GetResolvable.Resolve, GetResolvable.bindCapture, hnone, and_self]

/-- Witness of C10: a node under a root outside any capture, resolved in the context
of `demoWorld` that has capture 1 bound: the nested resolution answers from
capture 1. -/
theorem Resolve_without_capture_uses_caller_context_witness :
    demoEnv.FindCapture (GetResolvable.mk ⟨Node.child (Node.root 5) 3⟩).Path.Node = none ∧
    GetResolvable.Resolve demoEnv ⟨⟨Node.child (Node.root 5) 3⟩⟩ 1 demoWorld
      = demoEnv.Resolve 1 (Node.child (Node.root 5) 3) demoWorld ∧
    GetResolvable.Resolve demoEnv ⟨⟨Node.child (Node.root 5) 3⟩⟩ 1 demoWorld
      = (⟨Value.obj 1, none⟩, demoWorld) :=
  ⟨by decide,
   (Resolve_without_capture_uses_caller_context demoEnv ⟨⟨Node.child (Node.root 5) 3⟩⟩ 1
      demoWorld (by decide)).1,
   by decide⟩

/-! ## database.Build behind Get -/

/-- Counterexample to C6 as stated: the first `Get` ends in a cancellation, which is
not cached, so the second `Get` in the state the first one left invokes `Resolve`
again: the record of invocations grows from one to two. -/
theorem Get_after_cancellation_resolves_again :
    (Get (database.Build canceledEnv) 0 ⟨Node.capture ⟨2⟩⟩ demoWorld).1.err
      = some Error.Canceled ∧
    (Get (database.Build canceledEnv) 0 ⟨Node.capture ⟨2⟩⟩ demoWorld).2.db.resolved.length
      = 1 ∧
    (Get (database.Build canceledEnv) 0 ⟨Node.capture ⟨2⟩⟩
      (Get (database.Build canceledEnv) 0 ⟨Node.capture ⟨2⟩⟩
        demoWorld).2).2.db.resolved.length = 2 ∧
    (Get (database.Build canceledEnv) 0 ⟨Node.capture ⟨2⟩⟩
      (Get (database.Build canceledEnv) 0 ⟨Node.capture ⟨2⟩⟩ demoWorld).2).2.db.resolved
      ≠ (Get (database.Build canceledEnv) 0 ⟨Node.capture ⟨2⟩⟩ demoWorld).2.db.resolved := by
  decide

/-- C6, amended. When the first `Get(ctx, p)` completes with a value or with an
error other than a cancellation, a second `Get(ctx, p)` in the state the first one
left returns the same value and the same error, and `Resolve` is not invoked again:
the record of invocations, and indeed the whole state, is what the first call
left. -/
theorem Get_twice_same_result_no_resolve (env : Env) (ctx : Context) (p : Any)
    (w : World)
    (hdone : (Get (database.Build env) ctx p w).1.err ≠ some Error.Canceled) :
    (Get (database.Build env) ctx p (Get (database.Build env) ctx p w).2).1
      = (Get (database.Build env) ctx p w).1 ∧
    (Get (database.Build env) ctx p (Get (database.Build env) ctx p w).2).2.db.resolved
      = (Get (database.Build env) ctx p w).2.db.resolved ∧
    (Get (database.Build env) ctx p (Get (database.Build env) ctx p w).2).2
      = (Get (database.Build env) ctx p w).2 := by
  have hsecond : Get (database.Build env) ctx p (Get (database.Build env) ctx p w).2
      = Get (database.Build env) ctx p w := by
    simp only [Get, database.Build] at hdone ⊢
    cases hfind : w.db.find (env.fingerprint ⟨p⟩) with
    | some st => simp only [hfind]
    | none =>
      rw [hfind] at hdone
      simp only at hdone ⊢
      cases hout : EntryState.ofResult
          ((GetResolvable.mk p).Resolve env ctx
            ⟨w.contexts,
             (w.db.store (env.fingerprint ⟨p⟩) EntryState.pending).noteResolve
               (env.fingerprint ⟨p⟩)⟩).1 with
      | none =>
        rw [hout] at hdone
        exact absurd rfl hdone
      | some st => simp only [Database.find_store]
  rw [hsecond]
  exact ⟨rfl, rfl, rfl⟩

/-- Witness of amended C6: a path under capture 2 resolves to a value; the second
`Get` returns it from the cache. -/
theorem Get_twice_same_result_no_resolve_witness :
    (Get (database.Build demoEnv) 1 ⟨Node.child (Node.capture ⟨2⟩) 7⟩ demoWorld).1
      = ⟨Value.obj 2, none⟩ ∧
    (Get (database.Build demoEnv) 1 ⟨Node.child (Node.capture ⟨2⟩) 7⟩ demoWorld).1.err
      ≠ some Error.Canceled ∧
    (Get (database.Build demoEnv) 1 ⟨Node.child (Node.capture ⟨2⟩) 7⟩
      (Get (database.Build demoEnv) 1 ⟨Node.child (Node.capture ⟨2⟩) 7⟩ demoWorld).2).1
      = (Get (database.Build demoEnv) 1 ⟨Node.child (Node.capture ⟨2⟩) 7⟩ demoWorld).1 ∧
    (Get (database.Build demoEnv) 1 ⟨Node.child (Node.capture ⟨2⟩) 7⟩
      (Get (database.Build demoEnv) 1 ⟨Node.child (Node.capture ⟨2⟩) 7⟩
        demoWorld).2).2.db.resolved
      = (Get (database.Build demoEnv) 1 ⟨Node.child (Node.capture ⟨2⟩) 7⟩
          demoWorld).2.db.resolved :=
  ⟨by decide, by decide,
   (Get_twice_same_result_no_resolve demoEnv 1 ⟨Node.child (Node.capture ⟨2⟩) 7⟩ demoWorld
      (by decide)).1,
   (Get_twice_same_result_no_resolve demoEnv 1 ⟨Node.child (Node.capture ⟨2⟩) 7⟩ demoWorld
      (by decide)).2.1⟩

/-! ## atom.go -/

/-- C8. If the handler succeeds on the first `j - 1` atoms of a log of length `K`
and fails with `e` on the `j`-th (`1 ≤ j ≤ K`), the traversal of the log returns
`e` and has invoked the handler on exactly the first `j` atoms, in recorded order:
`j` invocations, none on a later atom, and the handler's state is the one its
failing invocation left. Scenario: on the log `[A, Invoke, B]` the
counting handler, which never fails, is invoked 3 times and sees the sentinel at
index 1. -/
theorem Traverse_stops_at_first_failure {σ : Type} (h : Handler σ) (ctx : Context)
    (log : List Atom) (s : σ) (j : Nat) (a : Atom) (e : Error)
    (hj : 1 ≤ j) (hjK : j ≤ log.length) (hat : log[j - 1]? = some a)
    (hpre : (Traverse h ctx (log.take (j - 1)) 0 s).err = none)
    (hfail : (h ctx a (Traverse h ctx (log.take (j - 1)) 0 s).state).1 = some e) :
    (Traverse h ctx log 0 s).err = some e ∧
    (Traverse h ctx log 0 s).visited = log.take j ∧
    (Traverse h ctx log 0 s).visited.length = j ∧
    (Traverse h ctx log 0 s).state
      = (h ctx a (Traverse h ctx (log.take (j - 1)) 0 s).state).2 ∧
    (∀ (ka kb : Nat) (ma mb : Message),
      (Traverse countingHandler ctx
          [Atom.Command ka ma, InvokeMarker, Atom.Command kb mb] 0 (0, [])).err = none ∧
      (Traverse countingHandler ctx
          [Atom.Command ka ma, InvokeMarker, Atom.Command kb mb] 0 (0, [])).visited.length
        = 3 ∧
      (Traverse countingHandler ctx
          [Atom.Command ka ma, InvokeMarker, Atom.Command kb mb] 0 (0, [])).state
        = (3, [1])) := by
  obtain ⟨i, rfl⟩ : ∃ i, j = i + 1 := ⟨j - 1, by omega⟩
  simp only [Nat.add_sub_cancel, Traverse, List.drop_zero] at hat hpre hfail ⊢
  have hi : i < log.length := by omega
  have ha : log[i] = a := by
    rw [List.getElem?_eq_getElem hi] at hat
    exact Option.some.inj hat
  have hsplit : log = log.take i ++ a :: log.drop (i + 1) := by
    rw [← ha, ← List.drop_eq_getElem_cons hi, List.take_append_drop]
  have htake : log.take (i + 1) = log.take i ++ [a] := by
    rw [List.take_succ, hat]
    rfl
  have hrun := traverseAtoms_first_failure h ctx (log.take i) a (log.drop (i + 1)) s e
    hpre hfail
  rw [← hsplit] at hrun
  rw [hrun, htake]
  refine ⟨rfl, rfl, ?_, rfl, ?_⟩
  · simp only [List.length_append, List.length_take, List.length_singleton]
    omega
  · intro ka kb ma mb
    exact ⟨rfl, rfl, rfl⟩

/-- Witness of C8: on the log `[A, Invoke, B]` a handler that fails on the sentinel
(the 2nd atom) is invoked on `A` and on the sentinel only, and its failure is
returned. -/
theorem Traverse_stops_at_first_failure_witness :
    (Traverse stopAtInvoke 0
        ([Atom.Command 1 Message.zero, InvokeMarker, Atom.Command 2 Message.zero].take (2 - 1))
        0 0).err = none ∧
    (Traverse stopAtInvoke 0
        [Atom.Command 1 Message.zero, InvokeMarker, Atom.Command 2 Message.zero] 0 0).err
      = some Error.HandlerAborted ∧
    (Traverse stopAtInvoke 0
        [Atom.Command 1 Message.zero, InvokeMarker, Atom.Command 2 Message.zero] 0 0).visited
      = [Atom.Command 1 Message.zero, InvokeMarker] ∧
    (Traverse stopAtInvoke 0
        [Atom.Command 1 Message.zero, InvokeMarker, Atom.Command 2 Message.zero] 0
        0).visited.length = 2 :=
  ⟨by decide,
   (Traverse_stops_at_first_failure stopAtInvoke 0
      [Atom.Command 1 Message.zero, InvokeMarker, Atom.Command 2 Message.zero] 0 2
      InvokeMarker Error.HandlerAborted (by decide) (by decide) (by decide) (by decide)
      (by decide)).1,
   (Traverse_stops_at_first_failure stopAtInvoke 0
      [Atom.Command 1 Message.zero, InvokeMarker, Atom.Command 2 Message.zero] 0 2
      InvokeMarker Error.HandlerAborted (by decide) (by decide) (by decide) (by decide)
      (by decide)).2.1,
   (Traverse_stops_at_first_failure stopAtInvoke 0
      [Atom.Command 1 Message.zero, InvokeMarker, Atom.Command 2 Message.zero] 0 2
      InvokeMarker Error.HandlerAborted (by decide) (by decide) (by decide) (by decide)
      (by decide)).2.2.1⟩

end Gapis
